import Mathlib

/-!
Verification of the viralcut video-editor web application.

This file shallowly embeds the TypeScript source of the repository:
the upload route handler, the status-poll route handler, the caption /
silence / scene analyzers (`src/lib/ai-analyzer.ts`), the in-memory queue
(`src/lib/queue.ts`), the command-string builders
(`src/lib/ffmpeg-commands.ts`) and the mock video processor.

Conventions used throughout:
  - JavaScript numbers that carry timestamps, priorities or media
    parameters are embedded as rationals (`ℚ`) or integers; byte sizes are
    `Nat`.
  - Fields named `end` or `type` in the TypeScript interfaces are renamed
    (`endT`, `jobType`, ...) because those words are reserved in Lean.
  - Sources of nondeterminism of the runtime (the clock, `Math.random`)
    are passed to the embedded functions as explicit arguments, so a
    handler that reads them becomes a pure function of request plus draw.
-/

namespace Upload

/-- Browser `File` value as seen by the upload handler: byte size, MIME
type and file name. -/
structure UploadFile where
  size : Nat
  mimeType : String
  name : String
deriving DecidableEq

/-- Multipart form fields read by the handler: `formData.get` of the
`video`, `style`, `pace` and `colors` entries.  A missing file is `none`. -/
structure UploadRequest where
  videoFile : Option UploadFile
  style : String
  pace : String
  colors : String
deriving DecidableEq

/-- Parsed `colors` JSON object; `JSON.parse` of user input may lack any of
the three keys, so each is optional. -/
structure ColorsJson where
  primary : Option String
  secondary : Option String
  accent : Option String
deriving DecidableEq

/-- Style configuration attached to the synthesized video record. -/
structure StyleConfigU where
  style : String
  pace : String
  colors : ColorsJson
deriving DecidableEq

/-- Video record of the `Video` interface of `types/video`, as populated by
the upload handler. -/
structure Video where
  id : String
  user_id : String
  title : String
  original_url : String
  processed_url : String
  thumbnail_url : String
  status : String
  duration : Nat
  format : String
  aspect_ratio : String
  style_config : StyleConfigU
  created_at : String
  updated_at : String
deriving DecidableEq

/-- Nondeterministic inputs of the handler: `Date.now()` and the random id
suffix drawn via `Math.random().toString(36).substr(2, 9)`. -/
structure Ctx where
  nowMs : Nat
  nowIso : String
  idSuffix : String
deriving DecidableEq

/-- Response of the route: a 400 with an error body, a 200 success
envelope, or a 500 when an exception (e.g. a `JSON.parse` failure) is
caught. -/
inductive UploadResponse where
  | badRequest (error : String)
  | ok (video : Video) (message : String)
  | serverError (error : String)
deriving DecidableEq

/-- Size ceiling of the handler: `const maxSize = 500 * 1024 * 1024`. -/
def maxSize : Nat := 500 * 1024 * 1024

/-- MIME allow-list of the handler. -/
def validTypes : List String := ["video/mp4", "video/quicktime", "video/x-msvideo"]

/-- Embedding of `name.replace(/\.[^/.]+$/, '')`: drop a trailing
dot-extension whose characters contain neither a dot nor a slash. -/
def stripExtension (name : String) : String :=
  let rev := name.toList.reverse
  let ext := rev.takeWhile (fun c => c ≠ '.' ∧ c ≠ '/')
  if ext.length < rev.length ∧ rev.getD ext.length ' ' = '.' ∧ ext ≠ [] then
    ((rev.drop (ext.length + 1)).reverse).asString
  else name

/-- Embedding of `videoFile.type.split('/')[1]`; an absent second segment
(JavaScript `undefined`) is modelled as the empty string. -/
def mimeSubtype (mime : String) : String :=
  (mime.splitOn "/").getD 1 ""

/-- Video id synthesized by the handler. -/
def mkVideoId (ctx : Ctx) : String :=
  "video_" ++ toString ctx.nowMs ++ "_" ++ ctx.idSuffix

/-- Embedding of the `POST` upload route handler.  `parseColors` stands for
`JSON.parse` applied to the `colors` form field (an `.error` is the thrown
`SyntaxError`, which the surrounding try/catch maps to a 500). -/
def POST (parseColors : String → Except String ColorsJson) (ctx : Ctx)
    (req : UploadRequest) : UploadResponse :=
  match req.videoFile with
  | none => .badRequest "Nenhum arquivo de vídeo fornecido"
  | some videoFile =>
    if maxSize < videoFile.size then
      .badRequest "Arquivo muito grande. Máximo: 500MB"
    else if ¬ videoFile.mimeType ∈ validTypes then
      .badRequest "Formato inválido. Use MP4 ou MOV"
    else
      match parseColors (if req.colors = "" then "\x7b\x7d" else req.colors) with
      | .error e => .serverError e
      | .ok colorsObj =>
        .ok
          { id := mkVideoId ctx
            user_id := "demo_user"
            title := stripExtension videoFile.name
            original_url := ""
            processed_url := ""
            thumbnail_url := ""
            status := "processing"
            duration := 0
            format := mimeSubtype videoFile.mimeType
            aspect_ratio := "16:9"
            style_config := { style := req.style, pace := req.pace, colors := colorsObj }
            created_at := ctx.nowIso
            updated_at := ctx.nowIso }
          "Vídeo enviado com sucesso! Iniciando processamento..."

end Upload

/-- C1: for every upload request carrying a video file, the upload handler
returns a 400 rejection with an error message if and only if the file size
strictly exceeds 500 MB or its MIME type is outside the allow-list
(mp4 / quicktime / x-msvideo); a file exactly at the 500 MB limit with an
allowed MIME type is accepted and a synthesized video record is
returned. -/
theorem C1_upload_validation
    (parseColors : String → Except String Upload.ColorsJson) (ctx : Upload.Ctx)
    (req : Upload.UploadRequest) (f : Upload.UploadFile)
    (hf : req.videoFile = some f)
    (hparse : ∀ s, ∃ c, parseColors s = .ok c) :
    ((∃ msg, Upload.POST parseColors ctx req = .badRequest msg) ↔
      (Upload.maxSize < f.size ∨ f.mimeType ∉ Upload.validTypes)) ∧
    (f.size = Upload.maxSize → f.mimeType ∈ Upload.validTypes →
      ∃ v msg, Upload.POST parseColors ctx req = .ok v msg ∧
        v.status = "processing" ∧ v.id = Upload.mkVideoId ctx) := by
  obtain ⟨c, hc⟩ := hparse (if req.colors = "" then "\x7b\x7d" else req.colors)
  by_cases h1 : Upload.maxSize < f.size <;> by_cases h2 : f.mimeType ∈ Upload.validTypes <;>
    simp [Upload.POST, hf, h1, h2, hc]
  omega

/-- Concrete `JSON.parse` model that always succeeds with an empty colors
object, used to exercise `C1_upload_validation`. -/
def wParse : String → Except String Upload.ColorsJson := fun _ => .ok ⟨none, none, none⟩

/-- Concrete clock/randomness context used by witnesses. -/
def wCtx : Upload.Ctx := ⟨1700000000000, "2024-01-01T00:00:00.000Z", "abc123def"⟩

/-- Concrete upload request: a file exactly at the 500 MB limit with an
allowed MIME type. -/
def wReq : Upload.UploadRequest :=
  ⟨some ⟨Upload.maxSize, "video/mp4", "clip.mp4"⟩, "modern", "medium", ""⟩

/-- Witness for C1 at a concrete boundary-value request. -/
theorem C1_upload_validation_witness :
    ((∃ msg, Upload.POST wParse wCtx wReq = .badRequest msg) ↔
      (Upload.maxSize < Upload.maxSize ∨ "video/mp4" ∉ Upload.validTypes)) ∧
    (Upload.maxSize = Upload.maxSize → "video/mp4" ∈ Upload.validTypes →
      ∃ v msg, Upload.POST wParse wCtx wReq = .ok v msg ∧
        v.status = "processing" ∧ v.id = Upload.mkVideoId wCtx) :=
  C1_upload_validation wParse wCtx wReq ⟨Upload.maxSize, "video/mp4", "clip.mp4"⟩
    rfl (fun _ => ⟨⟨none, none, none⟩, rfl⟩)

namespace StatusApi

/-- Nested `ai_analysis` object of the canned completed payload. -/
structure StatusAnalysis where
  virality_score : ℚ
  suggested_title : String
  suggested_description : String
  suggested_hashtags : List String
  emotion_peaks : List ℚ
  scene_changes : List ℚ
  audio_quality : ℚ
  visual_quality : ℚ
deriving DecidableEq

/-- Color palette of the canned payload. -/
structure StatusColors where
  primary : String
  secondary : String
  accent : String
deriving DecidableEq

/-- Style configuration of the canned payload. -/
structure StatusStyle where
  style : String
  pace : String
  colors : StatusColors
deriving DecidableEq

/-- Video record inside the completed payload of the status route. -/
structure StatusVideo where
  id : String
  user_id : String
  title : String
  original_url : String
  processed_url : String
  thumbnail_url : String
  status : String
  duration : Nat
  format : String
  aspect_ratio : String
  ai_analysis : StatusAnalysis
  style_config : StatusStyle
  created_at : String
  updated_at : String
deriving DecidableEq

/-- Completed payload: top-level JSON fields plus the canned video. -/
structure CompletedPayload where
  status : String
  progress : Nat
  currentStep : String
  timeRemaining : Nat
  video : StatusVideo
deriving DecidableEq

/-- Response of the status route handler. -/
inductive StatusResponse where
  | badRequest (error : String)
  | completed (payload : CompletedPayload)
  | processing (progress : Nat) (currentStep : String) (timeRemaining : Nat)
deriving DecidableEq

/-- Step labels hard-coded in the handler. -/
def steps : List String :=
  ["Validating video", "Extracting audio", "Analyzing with AI",
   "Generating visual effects", "Rendering video", "Generating thumbnail",
   "Finalizing"]

/-- Embedding of `Math.min(100, Math.floor(Math.random() * 100) + 1)`; the
argument `r` stands for `Math.floor(Math.random() * 100)`, a natural
number below 100. -/
def mockProgress (r : Nat) : Nat := min 100 (r + 1)

/-- Embedding of `Math.floor((mockProgress / 100) * steps.length)`. -/
def currentStepIndex (p : Nat) : Nat := p * steps.length / 100

/-- Embedding of `Math.max(0, Math.round((100 - mockProgress) * 1.2))`; for
`p ≤ 100` the rounded value is already non-negative, and
`Math.round x = ⌊x + 1/2⌋` becomes natural-number division by 10. -/
def timeRemainingOf (p : Nat) : Nat := ((100 - p) * 12 + 5) / 10

/-- Canned completed payload returned when the drawn progress reaches
100.  The two `new Date().toISOString()` calls are the `now` argument. -/
def completedPayload (now : String) (videoId : String) : CompletedPayload :=
  { status := "completed"
    progress := 100
    currentStep := "Completed"
    timeRemaining := 0
    video :=
      { id := videoId
        user_id := "demo_user"
        title := "Vídeo Processado"
        original_url := ""
        processed_url := "https://commondatastorage.googleapis.com/gtv-videos-bucket/sample/BigBuckBunny.mp4"
        thumbnail_url := "https://images.unsplash.com/photo-1574717024653-61fd2cf4d44d?w=400&h=300&fit=crop"
        status := "completed"
        duration := 120
        format := "mp4"
        aspect_ratio := "16:9"
        ai_analysis :=
          { virality_score := 85 / 100
            suggested_title := "🔥 Vídeo Incrível que Vai Viralizar!"
            suggested_description := "Este vídeo foi otimizado pela IA para máximo engajamento. Compartilhe agora!"
            suggested_hashtags := ["#viral", "#trending", "#ai", "#videoediting"]
            emotion_peaks := []
            scene_changes := []
            audio_quality := 9 / 10
            visual_quality := 95 / 100 }
        style_config :=
          { style := "modern"
            pace := "medium"
            colors :=
              { primary := "#FF6B6B"
                secondary := "#4ECDC4"
                accent := "#FFE66D" } }
        created_at := now
        updated_at := now } }

/-- Embedding of the `GET` status route handler.  `r` is the random draw
`Math.floor(Math.random() * 100)` of this call; the handler keeps no state
between calls, which is visible here in the fact that `GET` takes no state
argument at all. -/
def GET (now : String) (videoId : String) (r : Nat) : StatusResponse :=
  if videoId = "" then .badRequest "ID do vídeo não fornecido"
  else
    let p := mockProgress r
    let currentStep := steps.getD (min (currentStepIndex p) (steps.length - 1)) ""
    if 100 ≤ p then .completed (completedPayload now videoId)
    else .processing p currentStep (timeRemainingOf p)

end StatusApi

/-- C2: for every status poll with a non-empty videoId, the handler draws a
fresh progress value in 1..100 from the per-call random draw (no state
argument exists, so consecutive polls can decrease), returns the canned
completed payload — status completed, progress 100, hardcoded sample
processed/thumbnail URLs, video id equal to the requested id — exactly when
the drawn value reaches 100, and otherwise returns a processing payload
with that progress, a step label from the hard-coded list, and a
(non-negative, being a `Nat`) timeRemaining. -/
theorem C2_status_poll (now : String) (videoId : String) (r : Nat)
    (hid : videoId ≠ "") (hr : r < 100) :
    (1 ≤ StatusApi.mockProgress r ∧ StatusApi.mockProgress r ≤ 100) ∧
    ((∃ payload, StatusApi.GET now videoId r = .completed payload) ↔
      StatusApi.mockProgress r = 100) ∧
    (StatusApi.mockProgress r = 100 ↔ r = 99) ∧
    (StatusApi.mockProgress r = 100 →
      StatusApi.GET now videoId r = .completed (StatusApi.completedPayload now videoId) ∧
      (StatusApi.completedPayload now videoId).status = "completed" ∧
      (StatusApi.completedPayload now videoId).progress = 100 ∧
      (StatusApi.completedPayload now videoId).video.id = videoId ∧
      (StatusApi.completedPayload now videoId).video.processed_url =
        "https://commondatastorage.googleapis.com/gtv-videos-bucket/sample/BigBuckBunny.mp4" ∧
      (StatusApi.completedPayload now videoId).video.thumbnail_url =
        "https://images.unsplash.com/photo-1574717024653-61fd2cf4d44d?w=400&h=300&fit=crop") ∧
    (StatusApi.mockProgress r < 100 →
      ∃ step, StatusApi.GET now videoId r =
          .processing (StatusApi.mockProgress r) step
            (StatusApi.timeRemainingOf (StatusApi.mockProgress r)) ∧
        step ∈ StatusApi.steps) ∧
    (∃ rHigh rLow, rHigh < 100 ∧ rLow < 100 ∧
      ∃ sH sL tH tL pH pL,
        StatusApi.GET now videoId rHigh = .processing pH sH tH ∧
        StatusApi.GET now videoId rLow = .processing pL sL tL ∧
        pL < pH) := by
  have hlen : StatusApi.steps.length = 7 := by decide
  refine ⟨by unfold StatusApi.mockProgress; omega, ?_, ?_, ?_, ?_, ?_⟩
  · constructor
    · rintro ⟨payload, hpay⟩
      by_cases hp : 100 ≤ StatusApi.mockProgress r
      · have := Nat.min_le_left 100 (r + 1)
        simp only [StatusApi.mockProgress] at hp ⊢
        omega
      · simp [StatusApi.GET, hid, hp] at hpay
    · intro hp
      exact ⟨StatusApi.completedPayload now videoId, by simp [StatusApi.GET, hid, hp]⟩
  · simp [StatusApi.mockProgress]; omega
  · intro hp
    have hp99 : r = 99 := by simp [StatusApi.mockProgress] at hp; omega
    subst hp99
    refine ⟨by simp [StatusApi.GET, hid, StatusApi.mockProgress], ?_⟩
    simp [StatusApi.completedPayload]
  · intro hp
    refine ⟨StatusApi.steps.getD
      (min (StatusApi.currentStepIndex (StatusApi.mockProgress r))
        (StatusApi.steps.length - 1)) "", ?_, ?_⟩
    · simp only [StatusApi.GET, hid, if_neg hid]
      simp [Nat.not_le.mpr hp]
    · have hbound : min (StatusApi.currentStepIndex (StatusApi.mockProgress r))
          (StatusApi.steps.length - 1) < StatusApi.steps.length := by
        rw [hlen]; omega
      rw [List.getD_eq_getElem _ _ hbound]
      exact List.getElem_mem _
  · refine ⟨49, 9, by omega, by omega, ?_⟩
    refine ⟨StatusApi.steps.getD
        (min (StatusApi.currentStepIndex (StatusApi.mockProgress 49))
          (StatusApi.steps.length - 1)) "",
      StatusApi.steps.getD
        (min (StatusApi.currentStepIndex (StatusApi.mockProgress 9))
          (StatusApi.steps.length - 1)) "",
      StatusApi.timeRemainingOf (StatusApi.mockProgress 49),
      StatusApi.timeRemainingOf (StatusApi.mockProgress 9),
      StatusApi.mockProgress 49, StatusApi.mockProgress 9, ?_, ?_, by decide⟩ <;>
      · simp only [StatusApi.GET, if_neg hid]
        norm_num [StatusApi.mockProgress]

/-- Witness for C2 at videoId `"v"` and the boundary draw `r = 99`. -/
theorem C2_status_poll_witness :
    (1 ≤ StatusApi.mockProgress 99 ∧ StatusApi.mockProgress 99 ≤ 100) ∧
    ((∃ payload, StatusApi.GET "2024-01-01" "v" 99 = .completed payload) ↔
      StatusApi.mockProgress 99 = 100) ∧
    (StatusApi.mockProgress 99 = 100 ↔ 99 = 99) ∧
    (StatusApi.mockProgress 99 = 100 →
      StatusApi.GET "2024-01-01" "v" 99 =
        .completed (StatusApi.completedPayload "2024-01-01" "v") ∧
      (StatusApi.completedPayload "2024-01-01" "v").status = "completed" ∧
      (StatusApi.completedPayload "2024-01-01" "v").progress = 100 ∧
      (StatusApi.completedPayload "2024-01-01" "v").video.id = "v" ∧
      (StatusApi.completedPayload "2024-01-01" "v").video.processed_url =
        "https://commondatastorage.googleapis.com/gtv-videos-bucket/sample/BigBuckBunny.mp4" ∧
      (StatusApi.completedPayload "2024-01-01" "v").video.thumbnail_url =
        "https://images.unsplash.com/photo-1574717024653-61fd2cf4d44d?w=400&h=300&fit=crop") ∧
    (StatusApi.mockProgress 99 < 100 →
      ∃ step, StatusApi.GET "2024-01-01" "v" 99 =
          .processing (StatusApi.mockProgress 99) step
            (StatusApi.timeRemainingOf (StatusApi.mockProgress 99)) ∧
        step ∈ StatusApi.steps) ∧
    (∃ rHigh rLow, rHigh < 100 ∧ rLow < 100 ∧
      ∃ sH sL tH tL pH pL,
        StatusApi.GET "2024-01-01" "v" rHigh = .processing pH sH tH ∧
        StatusApi.GET "2024-01-01" "v" rLow = .processing pL sL tL ∧
        pL < pH) :=
  C2_status_poll "2024-01-01" "v" 99 (by decide) (by decide)

namespace Analyzer

/-- Word-level transcription entry produced by the Whisper wrapper; the
`end` field of the source is renamed `endT`. -/
structure Word where
  word : String
  start : ℚ
  endT : ℚ
  confidence : ℚ
deriving DecidableEq, Inhabited

/-- Caption produced by `generateCaptions` (the anonymous record type of
its return value). -/
structure Caption where
  text : String
  start_time : ℚ
  end_time : ℚ
  is_highlighted : Bool
  highlight_words : List String
deriving DecidableEq

/-- Caption built from one chunk of at most five words: text is the words
joined by spaces, timestamps come from the first and last word of the
chunk, and highlight data comes from the viral-keyword filter. -/
def mkCaption (viralKeywords : List String) (captionWords : List Word) : Caption :=
  let highlightWords :=
    (captionWords.filter (fun w => viralKeywords.contains w.word.toLower)).map
      (fun w => w.word)
  { text := String.intercalate " " (captionWords.map (fun w => w.word))
    start_time := (captionWords.headD default).start
    end_time := (captionWords.getLastD default).endT
    is_highlighted := ¬ highlightWords.isEmpty
    highlight_words := highlightWords }

/-- Embedding of the chunking loop of `generateCaptions`:
`for (let i = 0; i < words.length; i += 5)` slices of `words`. -/
def chunks5 {α : Type} : List α → List (List α)
  | [] => []
  | w :: ws => (w :: ws.take 4) :: chunks5 (ws.drop 4)
termination_by l => l.length
decreasing_by simp; omega

/-- Embedding of `generateCaptions` of `ai-analyzer.ts`. -/
def generateCaptions (viralKeywords : List String) : List Word → List Caption
  | [] => []
  | w :: ws =>
    mkCaption viralKeywords (w :: ws.take 4) ::
      generateCaptions viralKeywords (ws.drop 4)
termination_by l => l.length
decreasing_by simp; omega

/-- Silence period reported by `detectSilences`; `end` renamed `endT`. -/
structure SilencePeriod where
  start : ℚ
  endT : ℚ
  duration : ℚ
deriving DecidableEq

/-- Scene change reported by `detectScenes`; `type` renamed `sceneType`. -/
structure SceneChange where
  timestamp : ℚ
  sceneType : String
  confidence : ℚ
deriving DecidableEq

/-- Consecutive word pairs `(words[i-1], words[i])` scanned by the two gap
detectors. -/
def consecutivePairs (words : List Word) : List (Word × Word) :=
  words.zip words.tail

/-- Embedding of `detectSilences`: a gap strictly longer than one second
between the end of a word and the start of the next is reported. -/
def detectSilences (words : List Word) : List SilencePeriod :=
  (consecutivePairs words).filterMap fun p =>
    let silenceStart := p.1.endT
    let silenceEnd := p.2.start
    let duration := silenceEnd - silenceStart
    if 1 < duration then some ⟨silenceStart, silenceEnd, duration⟩ else none

/-- Embedding of `detectScenes`: a gap strictly longer than two seconds is
reported as a fade at the middle of the gap, with confidence
`min (gap / 5) 1`. -/
def detectScenes (words : List Word) : List SceneChange :=
  (consecutivePairs words).filterMap fun p =>
    let gap := p.2.start - p.1.endT
    if 2 < gap then some ⟨p.1.endT + gap / 2, "fade", min (gap / 5) 1⟩ else none

/-- Every reported silence has a duration above one second that matches its
endpoints. -/
theorem detectSilences_sound (words : List Word) :
    ∀ s ∈ detectSilences words, 1 < s.duration ∧ s.duration = s.endT - s.start := by
  intro s hs
  rw [detectSilences, List.mem_filterMap] at hs
  obtain ⟨p, _, hp⟩ := hs
  by_cases hgap : 1 < p.2.start - p.1.endT
  · simp only [if_pos hgap] at hp
    cases hp
    exact ⟨hgap, rfl⟩
  · simp [if_neg hgap] at hp

/-- Every reported scene change has confidence strictly above `2/5`. -/
theorem detectScenes_confidence (words : List Word) :
    ∀ sc ∈ detectScenes words, 2 / 5 < sc.confidence := by
  intro sc hsc
  rw [detectScenes, List.mem_filterMap] at hsc
  obtain ⟨p, _, hp⟩ := hsc
  by_cases hgap : 2 < p.2.start - p.1.endT
  · simp only [if_pos hgap] at hp
    cases hp
    refine lt_min ?_ (by norm_num)
    linarith
  · simp [if_neg hgap] at hp

/-- The pair of words at positions `i` and `i + 1` is scanned by the gap
detectors. -/
theorem pair_mem_consecutivePairs (words : List Word) (i : Nat)
    (h : i + 1 < words.length) :
    (words.get ⟨i, Nat.lt_of_succ_lt h⟩, words.get ⟨i + 1, h⟩) ∈
      consecutivePairs words := by
  apply List.get?_mem (n := i)
  rw [consecutivePairs]
  rw [List.get?_eq_getElem?, List.getElem?_zip_eq_some]
  refine ⟨?_, ?_⟩
  · simp [List.getElem?_eq_getElem (Nat.lt_of_succ_lt h)]
  · rw [List.getElem?_tail]
    simp [List.getElem?_eq_getElem h]

/-- Concatenating the chunks rebuilds the original word sequence. -/
theorem chunks5_flatten {α : Type} (l : List α) : (chunks5 l).flatten = l := by
  induction l using chunks5.induct with
  | case1 => simp [chunks5]
  | case2 w ws ih =>
    rw [chunks5]
    simp only [List.flatten_cons, ih]
    simp

/-- Each chunk is non-empty and holds at most five words. -/
theorem chunks5_length_le {α : Type} (l : List α) :
    ∀ c ∈ chunks5 l, 0 < c.length ∧ c.length ≤ 5 := by
  induction l using chunks5.induct with
  | case1 => simp [chunks5]
  | case2 w ws ih =>
    intro c hc
    rw [chunks5] at hc
    rcases List.mem_cons.mp hc with rfl | hc
    · simp only [List.length_cons, List.length_take]
      omega
    · exact ih c hc

/-- Chunking yields no chunk exactly on the empty list. -/
theorem chunks5_eq_nil {α : Type} (l : List α) : chunks5 l = [] ↔ l = [] := by
  cases l with
  | nil => simp [chunks5]
  | cons w ws => rw [chunks5]; simp

/-- Every chunk except possibly the last one has exactly five words. -/
theorem chunks5_dropLast_length {α : Type} (l : List α) :
    ∀ c ∈ (chunks5 l).dropLast, c.length = 5 := by
  induction l using chunks5.induct with
  | case1 => simp [chunks5]
  | case2 w ws ih =>
    intro c hc
    rw [chunks5] at hc
    rcases h : chunks5 (ws.drop 4) with _ | ⟨c2, cs⟩
    · rw [h] at hc
      simp at hc
    · rw [h, List.dropLast_cons₂] at hc
      rcases List.mem_cons.mp hc with rfl | hc
      · have hne : ws.drop 4 ≠ [] := by
          intro hnil
          rw [hnil] at h
          simp [chunks5] at h
        have : 4 < ws.length := by
          by_contra hle
          exact hne (List.drop_eq_nil_of_le (by omega))
        simp only [List.length_cons, List.length_take]
        omega
      · rw [← h] at hc
        exact ih c hc

/-- The caption list is exactly the chunk list mapped through
`mkCaption`. -/
theorem generateCaptions_eq_map (viralKeywords : List String) (words : List Word) :
    generateCaptions viralKeywords words =
      (chunks5 words).map (mkCaption viralKeywords) := by
  induction words using chunks5.induct with
  | case1 => rw [chunks5, generateCaptions]; rfl
  | case2 w ws ih => rw [chunks5, generateCaptions, List.map_cons, ih]

end Analyzer

/-- C3: `generateCaptions` partitions the transcription words in order into
consecutive chunks of at most five words (every chunk except possibly the
last has exactly five), and each caption takes its start time from the
first word of its chunk, its end time from the last word, and its text from
the chunk words joined by spaces. -/
theorem C3_generate_captions (words : List Analyzer.Word) (viralKeywords : List String) :
    ∃ chunks : List (List Analyzer.Word),
      chunks.flatten = words ∧
      (∀ c ∈ chunks, 0 < c.length ∧ c.length ≤ 5) ∧
      (∀ c ∈ chunks.dropLast, c.length = 5) ∧
      Analyzer.generateCaptions viralKeywords words =
        chunks.map (Analyzer.mkCaption viralKeywords) ∧
      (∀ c ∈ chunks,
        (Analyzer.mkCaption viralKeywords c).start_time = (c.headD default).start ∧
        (Analyzer.mkCaption viralKeywords c).end_time = (c.getLastD default).endT ∧
        (Analyzer.mkCaption viralKeywords c).text =
          String.intercalate " " (c.map (fun w => w.word))) :=
  ⟨Analyzer.chunks5 words, Analyzer.chunks5_flatten words,
   Analyzer.chunks5_length_le words, Analyzer.chunks5_dropLast_length words,
   Analyzer.generateCaptions_eq_map viralKeywords words,
   fun _ _ => ⟨rfl, rfl, rfl⟩⟩

/-- C4: for every transcription word list and every pair of consecutive
words, `detectSilences` reports a silence period for the gap between the
previous word's end and the next word's start if and only if that gap
strictly exceeds one second, and `detectScenes` reports a scene change for
that gap if and only if it strictly exceeds two seconds; both thresholds
are exclusive, so a gap exactly at the threshold is not flagged. -/
theorem C4_gap_thresholds (words : List Analyzer.Word) (i : Nat)
    (h : i + 1 < words.length) :
    ((∃ s ∈ Analyzer.detectSilences words,
        s.start = (words.getD i default).endT ∧
        s.endT = (words.getD (i + 1) default).start) ↔
      1 < (words.getD (i + 1) default).start - (words.getD i default).endT) ∧
    ((∃ sc ∈ Analyzer.detectScenes words,
        sc.timestamp = (words.getD i default).endT +
          ((words.getD (i + 1) default).start - (words.getD i default).endT) / 2 ∧
        sc.sceneType = "fade" ∧
        sc.confidence = min
          (((words.getD (i + 1) default).start - (words.getD i default).endT) / 5) 1) ↔
      2 < (words.getD (i + 1) default).start - (words.getD i default).endT) := by
  have hi : i < words.length := Nat.lt_of_succ_lt h
  rw [List.getD_eq_getElem _ _ hi, List.getD_eq_getElem _ _ h]
  have hpair := Analyzer.pair_mem_consecutivePairs words i h
  constructor
  · constructor
    · rintro ⟨s, hs, hstart, hend⟩
      obtain ⟨hdur, heq⟩ := Analyzer.detectSilences_sound words s hs
      rw [heq, hstart, hend] at hdur
      simpa using hdur
    · intro hgap
      refine ⟨⟨(words.get ⟨i, hi⟩).endT, (words.get ⟨i + 1, h⟩).start,
        (words.get ⟨i + 1, h⟩).start - (words.get ⟨i, hi⟩).endT⟩, ?_, rfl, rfl⟩
      rw [Analyzer.detectSilences, List.mem_filterMap]
      exact ⟨_, hpair, by simp only [List.get_eq_getElem, if_pos hgap]⟩
  · constructor
    · rintro ⟨sc, hsc, _, _, hconf⟩
      have hc := Analyzer.detectScenes_confidence words sc hsc
      rw [hconf] at hc
      have h5 : (2 : ℚ) / 5 <
          ((words.get ⟨i + 1, h⟩).start - (words.get ⟨i, hi⟩).endT) / 5 :=
        lt_of_lt_of_le hc (min_le_left _ _)
      simp only [List.get_eq_getElem] at h5 ⊢
      linarith
    · intro hgap
      refine ⟨⟨(words.get ⟨i, hi⟩).endT +
        ((words.get ⟨i + 1, h⟩).start - (words.get ⟨i, hi⟩).endT) / 2, "fade",
        min (((words.get ⟨i + 1, h⟩).start - (words.get ⟨i, hi⟩).endT) / 5) 1⟩,
        ?_, rfl, rfl, rfl⟩
      rw [Analyzer.detectScenes, List.mem_filterMap]
      exact ⟨_, hpair, by simp only [List.get_eq_getElem, if_pos hgap]⟩

/-- Concrete two-word transcription with a gap of one and a half seconds,
used to exercise `C4_gap_thresholds`: the gap is flagged as silence but not
as a scene change. -/
def wWords : List Analyzer.Word := [⟨"a", 0, 1, 1⟩, ⟨"b", 5 / 2, 3, 1⟩]

/-- Witness for C4 at the concrete two-word transcription. -/
theorem C4_gap_thresholds_witness :
    ((∃ s ∈ Analyzer.detectSilences wWords,
        s.start = (wWords.getD 0 default).endT ∧
        s.endT = (wWords.getD 1 default).start) ↔
      1 < (wWords.getD 1 default).start - (wWords.getD 0 default).endT) ∧
    ((∃ sc ∈ Analyzer.detectScenes wWords,
        sc.timestamp = (wWords.getD 0 default).endT +
          ((wWords.getD 1 default).start - (wWords.getD 0 default).endT) / 2 ∧
        sc.sceneType = "fade" ∧
        sc.confidence = min
          (((wWords.getD 1 default).start - (wWords.getD 0 default).endT) / 5) 1) ↔
      2 < (wWords.getD 1 default).start - (wWords.getD 0 default).endT) :=
  C4_gap_thresholds wWords 0 (by decide)

namespace Queue

/-- Lane names of the in-memory queue record (`QUEUES`). -/
inductive QueueName where
  | UPLOAD
  | PROCESS
  | RENDER
  | COMPLETED
  | FAILED
deriving DecidableEq

/-- Free-form `data` payload of a queue job.  The processing loop reads and
writes only the `retryCount` and `error` keys; all remaining keys of the
`Record<string, any>` are opaque to the queue module and are modelled by
the single `extra` field. -/
structure JobData where
  retryCount : Option Nat
  error : Option String
  extra : String
deriving DecidableEq

/-- Queue job envelope of `types/video`; the `type` field is renamed
`jobType`. -/
structure QueueJob where
  id : String
  jobType : String
  videoId : String
  priority : Int
  data : JobData
  createdAt : Nat
deriving DecidableEq

/-- Contents of the five lanes of `inMemoryQueues`. -/
def Queues := QueueName → List QueueJob

/-- Embedding of `enqueue`: push at the back of the lane, stamping
`createdAt` with the current clock (`Date.now()` is the `now` argument). -/
def enqueue (now : Nat) (q : QueueName) (job : QueueJob) (qs : Queues) : Queues :=
  fun q2 => if q2 = q then qs q ++ [{ job with createdAt := now }] else qs q2

/-- Embedding of `dequeue`: `shift()` the front of the lane. -/
def dequeue (q : QueueName) (qs : Queues) : Option QueueJob × Queues :=
  match qs q with
  | [] => (none, qs)
  | j :: rest => (some j, fun q2 => if q2 = q then rest else qs q2)

/-- Core of `enqueuePriority`: `findIndex` of the first element satisfying
the scan predicate, then `splice(insertIndex, 0, a)`; a missing index
(JavaScript `-1`) appends at the back. -/
def spliceAt {α : Type} (p : α → Bool) (a : α) (l : List α) : List α :=
  match l.findIdx? p with
  | none => l ++ [a]
  | some i => l.insertIdx i a

/-- Embedding of `enqueuePriority` of `queue.ts`. -/
def enqueuePriority (now : Nat) (q : QueueName) (job : QueueJob) (qs : Queues) : Queues :=
  let fullJob : QueueJob := { job with createdAt := now }
  let newJobs := spliceAt (fun j => j.priority < job.priority) fullJob (qs q)
  fun q2 => if q2 = q then newJobs else qs q2

/-- Splice when the scan finds no index. -/
theorem spliceAt_none {α : Type} (p : α → Bool) (a : α) (l : List α)
    (h : l.findIdx? p = none) : spliceAt p a l = l ++ [a] := by
  rw [spliceAt, h]

/-- Splice when the scan finds the first index `i`. -/
theorem spliceAt_some {α : Type} (p : α → Bool) (a : α) (l : List α) (i : Nat)
    (h : l.findIdx? p = some i) : spliceAt p a l = l.insertIdx i a := by
  rw [spliceAt, h]

/-- Splice at the first index satisfying the scan predicate equals the
takeWhile/dropWhile decomposition around the new element. -/
theorem spliceAt_eq {α : Type} (p : α → Bool) (a : α) (l : List α) :
    spliceAt p a l =
      l.takeWhile (fun x => ! p x) ++ a :: l.dropWhile (fun x => ! p x) := by
  induction l with
  | nil => simp [spliceAt_none p a [] rfl]
  | cons x xs ih =>
    by_cases hx : p x
    · have h0 : (x :: xs).findIdx? p = some 0 := by
        rw [List.findIdx?_cons, if_pos hx]
      rw [spliceAt_some p a _ 0 h0, List.insertIdx_zero, List.takeWhile_cons,
        List.dropWhile_cons]
      simp [hx]
    · have hcons : (x :: xs).findIdx? p = (xs.findIdx? p).map (· + 1) := by
        rw [List.findIdx?_cons, if_neg hx, List.findIdx?_succ]
      cases hfind : xs.findIdx? p with
      | none =>
        rw [spliceAt_none p a _ (by rw [hcons, hfind]; rfl)]
        rw [spliceAt_none p a xs hfind] at ih
        rw [List.takeWhile_cons, List.dropWhile_cons]
        simp [hx, ← ih]
      | some i =>
        rw [spliceAt_some p a _ (i + 1) (by rw [hcons, hfind]; rfl),
          List.insertIdx_succ_cons]
        rw [spliceAt_some p a xs i hfind] at ih
        rw [List.takeWhile_cons, List.dropWhile_cons]
        simp [hx, ih]

/-- Heads of `dropWhile` fail the predicate. -/
theorem dropWhile_head_false {α : Type} (p : α → Bool) (l : List α) (a : α)
    (rest : List α) (h : l.dropWhile p = a :: rest) : p a = false := by
  induction l with
  | nil => simp [List.dropWhile] at h
  | cons x xs ih =>
    rw [List.dropWhile_cons] at h
    by_cases hx : p x
    · rw [if_pos hx] at h
      exact ih h
    · rw [if_neg hx] at h
      cases h
      simpa using hx

/-- The scan predicate of `enqueuePriority`, negated: a kept (scanned-over)
job has priority at least that of the new job. -/
theorem not_lt_decide_eq (p : Int) :
    (fun (x : QueueJob) => ! decide (x.priority < p)) =
      (fun (j : QueueJob) => decide (p ≤ j.priority)) := by
  funext x
  by_cases hx : x.priority < p
  · simp [hx, not_le.mpr hx]
  · simp [hx, not_lt.mp hx]

end Queue

/-- C5: `enqueuePriority` inserts the new job (stamped with the clock)
immediately before the first existing job of strictly lower priority —
after the block of jobs with priority at least the new one, before the
rest — appending at the back when no such job exists; the pre-existing
jobs keep their relative order (the two blocks concatenate back to the
original lane), other lanes are untouched, and a lane sorted by
non-increasing priority stays sorted. -/
theorem C5_enqueue_priority (now : Nat) (q : Queue.QueueName)
    (job : Queue.QueueJob) (qs : Queue.Queues) :
    ((Queue.enqueuePriority now q job qs) q =
      (qs q).takeWhile (fun j => decide (job.priority ≤ j.priority)) ++
        { job with createdAt := now } ::
          (qs q).dropWhile (fun j => decide (job.priority ≤ j.priority))) ∧
    ((qs q).takeWhile (fun j => decide (job.priority ≤ j.priority)) ++
      (qs q).dropWhile (fun j => decide (job.priority ≤ j.priority)) = qs q) ∧
    (∀ q2, q2 ≠ q → (Queue.enqueuePriority now q job qs) q2 = qs q2) ∧
    ((qs q).Pairwise (fun a b => b.priority ≤ a.priority) →
      ((Queue.enqueuePriority now q job qs) q).Pairwise
        (fun a b => b.priority ≤ a.priority)) := by
  have heq : (Queue.enqueuePriority now q job qs) q =
      (qs q).takeWhile (fun j => decide (job.priority ≤ j.priority)) ++
        { job with createdAt := now } ::
          (qs q).dropWhile (fun j => decide (job.priority ≤ j.priority)) := by
    simp only [Queue.enqueuePriority, if_true]
    rw [Queue.spliceAt_eq, Queue.not_lt_decide_eq]
  refine ⟨heq, List.takeWhile_append_dropWhile _ _, ?_, ?_⟩
  · intro q2 hq2
    show (if q2 = q then _ else qs q2) = qs q2
    rw [if_neg hq2]
  · intro hsorted
    rw [heq]
    have hdecomp :
        (qs q).takeWhile (fun j => decide (job.priority ≤ j.priority)) ++
          (qs q).dropWhile (fun j => decide (job.priority ≤ j.priority)) = qs q :=
      List.takeWhile_append_dropWhile _ _
    rw [← hdecomp, List.pairwise_append] at hsorted
    obtain ⟨htw, hdw, hcross⟩ := hsorted
    refine List.pairwise_append.mpr ⟨htw, List.pairwise_cons.mpr ⟨?_, hdw⟩, ?_⟩
    · intro b hb
      rcases hdwEq : (qs q).dropWhile (fun j => decide (job.priority ≤ j.priority))
        with _ | ⟨h0, rest⟩
      · rw [hdwEq] at hb
        cases hb
      · rw [hdwEq] at hb hdw
        have hh0 : ¬ job.priority ≤ h0.priority := by
          have := Queue.dropWhile_head_false
            (fun j => decide (job.priority ≤ j.priority)) (qs q) h0 rest hdwEq
          simpa using this
        rcases List.mem_cons.mp hb with rfl | hbrest
        · exact le_of_lt (not_le.mp hh0)
        · have := (List.pairwise_cons.mp hdw).1 b hbrest
          exact le_trans this (le_of_lt (not_le.mp hh0))
    · intro a ha b hb
      have hap : job.priority ≤ a.priority := by
        have := List.mem_takeWhile_imp ha
        simpa using this
      rcases List.mem_cons.mp hb with rfl | hbdw
      · exact hap
      · exact hcross a ha b hbdw

/-- Concrete lane jobs used by the queue witnesses: an existing job of
priority 5, one of priority 3, and a new job of priority 5. -/
def wJobA : Queue.QueueJob := ⟨"a", "process", "v1", 5, ⟨none, none, ""⟩, 1⟩

/-- Existing priority-3 job of the queue witnesses. -/
def wJobB : Queue.QueueJob := ⟨"b", "process", "v2", 3, ⟨none, none, ""⟩, 2⟩

/-- New priority-5 job inserted by the C5 witness: it must land between
`wJobA` (equal priority, scanned over) and `wJobB` (strictly lower). -/
def wJobNew : Queue.QueueJob := ⟨"n", "process", "v3", 5, ⟨none, none, ""⟩, 0⟩

/-- Concrete queue state for the C5 witness. -/
def wQs : Queue.Queues :=
  fun q => if q = Queue.QueueName.PROCESS then [wJobA, wJobB] else []

/-- Witness for C5 on a concrete lane holding jobs of priority 5 and 3. -/
theorem C5_enqueue_priority_witness :
    ((Queue.enqueuePriority 7 Queue.QueueName.PROCESS wJobNew wQs)
        Queue.QueueName.PROCESS =
      (wQs Queue.QueueName.PROCESS).takeWhile
          (fun j => decide (wJobNew.priority ≤ j.priority)) ++
        { wJobNew with createdAt := 7 } ::
          (wQs Queue.QueueName.PROCESS).dropWhile
            (fun j => decide (wJobNew.priority ≤ j.priority))) ∧
    ((wQs Queue.QueueName.PROCESS).takeWhile
        (fun j => decide (wJobNew.priority ≤ j.priority)) ++
      (wQs Queue.QueueName.PROCESS).dropWhile
        (fun j => decide (wJobNew.priority ≤ j.priority)) =
      wQs Queue.QueueName.PROCESS) ∧
    (∀ q2, q2 ≠ Queue.QueueName.PROCESS →
      (Queue.enqueuePriority 7 Queue.QueueName.PROCESS wJobNew wQs) q2 = wQs q2) ∧
    ((wQs Queue.QueueName.PROCESS).Pairwise (fun a b => b.priority ≤ a.priority) →
      ((Queue.enqueuePriority 7 Queue.QueueName.PROCESS wJobNew wQs)
          Queue.QueueName.PROCESS).Pairwise
        (fun a b => b.priority ≤ a.priority)) :=
  C5_enqueue_priority 7 Queue.QueueName.PROCESS wJobNew wQs

namespace Queue

/-- Embedding of one iteration of the `processQueue` loop body on a
non-empty lane: dequeue the front job, run the processor on it, and route
the job to the `COMPLETED` lane on success, back to the same lane with an
incremented `retryCount` while `retryCount < maxRetries`, or to the
`FAILED` lane with the error message attached once retries are exhausted.
The embedding keeps no timing: the source sleeps only when the lane is
empty, and applies no backoff delay before a retry. -/
def processOnce (now : Nat) (queueName : QueueName) (maxRetries : Nat)
    (res : QueueJob → Except String Unit) (qs : Queues) : Queues :=
  match dequeue queueName qs with
  | (none, qs2) => qs2
  | (some job, qs2) =>
    match res job with
    | .ok _ => enqueue now .COMPLETED job qs2
    | .error msg =>
      let retryCount := job.data.retryCount.getD 0 + 1
      if retryCount < maxRetries then
        enqueue now queueName
          { job with data := { job.data with retryCount := some retryCount } } qs2
      else
        enqueue now .FAILED
          { job with data := { job.data with error := some msg } } qs2

end Queue

/-- Dequeue of a lane holding `job :: rest` pops `job` and keeps the other
lanes. -/
theorem Queue.dequeue_eq_of_cons (q : Queue.QueueName) (qs : Queue.Queues)
    (job : Queue.QueueJob) (rest : List Queue.QueueJob) (hq : qs q = job :: rest) :
    Queue.dequeue q qs = (some job, fun q2 => if q2 = q then rest else qs q2) := by
  unfold Queue.dequeue
  rw [hq]

/-- Job of the C6 witness trace: fresh, with no `retryCount` yet. -/
def wJob6 : Queue.QueueJob := ⟨"j1", "process", "v1", 1, ⟨none, none, "payload"⟩, 0⟩

/-- Initial queue state of the C6 witness trace. -/
def wQs6 : Queue.Queues :=
  fun q2 => if q2 = Queue.QueueName.PROCESS then [wJob6] else []

/-- Always-throwing processor of the C6 witness trace. -/
def wFailRes : Queue.QueueJob → Except String Unit := fun _ => .error "boom"

/-- One loop iteration of the C6 witness trace, with the default
`maxRetries = 3`. -/
def wStep : Queue.Queues → Queue.Queues :=
  Queue.processOnce 5 Queue.QueueName.PROCESS 3 wFailRes

/-- C6: one iteration of the `processQueue` loop on a non-empty lane routes
the dequeued job to `COMPLETED` when the processor succeeds; on a throw it
re-enqueues the job into the same lane with `retryCount` incremented by one
while the incremented count stays below `maxRetries`, and otherwise moves
the job to the `FAILED` lane with the error message attached.  With the
default `maxRetries = 3`, a fresh always-failing job is attempted three
times — re-enqueued with retryCount 1, then 2 — and then lands in `FAILED`
with the error, never in `COMPLETED`. -/
theorem C6_process_queue_retry
    (now : Nat) (q : Queue.QueueName) (maxRetries : Nat)
    (res : Queue.QueueJob → Except String Unit) (qs : Queue.Queues)
    (job : Queue.QueueJob) (rest : List Queue.QueueJob)
    (hq : qs q = job :: rest)
    (hC : q ≠ Queue.QueueName.COMPLETED) (hF : q ≠ Queue.QueueName.FAILED) :
    (∀ u, res job = .ok u →
      (Queue.processOnce now q maxRetries res qs) Queue.QueueName.COMPLETED =
        qs Queue.QueueName.COMPLETED ++ [{ job with createdAt := now }] ∧
      (Queue.processOnce now q maxRetries res qs) q = rest) ∧
    (∀ msg, res job = .error msg →
      (job.data.retryCount.getD 0 + 1 < maxRetries →
        (Queue.processOnce now q maxRetries res qs) q =
          rest ++ [{ job with
            data := { job.data with
              retryCount := some (job.data.retryCount.getD 0 + 1) },
            createdAt := now }] ∧
        (Queue.processOnce now q maxRetries res qs) Queue.QueueName.FAILED =
          qs Queue.QueueName.FAILED) ∧
      (¬ job.data.retryCount.getD 0 + 1 < maxRetries →
        (Queue.processOnce now q maxRetries res qs) Queue.QueueName.FAILED =
          qs Queue.QueueName.FAILED ++
            [{ job with
              data := { job.data with error := some msg },
              createdAt := now }] ∧
        (Queue.processOnce now q maxRetries res qs) q = rest)) ∧
    ((wStep wQs6) Queue.QueueName.PROCESS =
        [{ wJob6 with
          data := { wJob6.data with retryCount := some 1 },
          createdAt := 5 }] ∧
      (wStep (wStep wQs6)) Queue.QueueName.PROCESS =
        [{ wJob6 with
          data := { wJob6.data with retryCount := some 2 },
          createdAt := 5 }] ∧
      (wStep (wStep (wStep wQs6))) Queue.QueueName.PROCESS = [] ∧
      (wStep (wStep (wStep wQs6))) Queue.QueueName.FAILED =
        [⟨"j1", "process", "v1", 1, ⟨some 2, some "boom", "payload"⟩, 5⟩] ∧
      (wStep (wStep (wStep wQs6))) Queue.QueueName.COMPLETED = []) := by
  have hdq := Queue.dequeue_eq_of_cons q qs job rest hq
  have hC2 : Queue.QueueName.COMPLETED ≠ q := Ne.symm hC
  have hF2 : Queue.QueueName.FAILED ≠ q := Ne.symm hF
  refine ⟨?_, ?_, by decide⟩
  · intro u hres
    constructor
    · simp [Queue.processOnce, hdq, hres, Queue.enqueue, if_neg hC2]
    · simp [Queue.processOnce, hdq, hres, Queue.enqueue, if_neg hC]
  · intro msg hres
    constructor
    · intro hretry
      constructor
      · simp [Queue.processOnce, hdq, hres, if_pos hretry, Queue.enqueue]
      · simp [Queue.processOnce, hdq, hres, if_pos hretry, Queue.enqueue,
          if_neg hF2]
    · intro hdone
      constructor
      · simp [Queue.processOnce, hdq, hres, if_neg hdone, Queue.enqueue,
          if_neg hF2]
      · simp [Queue.processOnce, hdq, hres, if_neg hdone, Queue.enqueue,
          if_neg hF]

/-- Witness for C6: the always-failing processor on the concrete fresh
job. -/
theorem C6_process_queue_retry_witness :
    (∀ u, wFailRes wJob6 = .ok u →
      (Queue.processOnce 5 Queue.QueueName.PROCESS 3 wFailRes wQs6)
          Queue.QueueName.COMPLETED =
        wQs6 Queue.QueueName.COMPLETED ++ [{ wJob6 with createdAt := 5 }] ∧
      (Queue.processOnce 5 Queue.QueueName.PROCESS 3 wFailRes wQs6)
          Queue.QueueName.PROCESS = []) ∧
    (∀ msg, wFailRes wJob6 = .error msg →
      (wJob6.data.retryCount.getD 0 + 1 < 3 →
        (Queue.processOnce 5 Queue.QueueName.PROCESS 3 wFailRes wQs6)
            Queue.QueueName.PROCESS =
          [] ++ [{ wJob6 with
            data := { wJob6.data with
              retryCount := some (wJob6.data.retryCount.getD 0 + 1) },
            createdAt := 5 }] ∧
        (Queue.processOnce 5 Queue.QueueName.PROCESS 3 wFailRes wQs6)
            Queue.QueueName.FAILED =
          wQs6 Queue.QueueName.FAILED) ∧
      (¬ wJob6.data.retryCount.getD 0 + 1 < 3 →
        (Queue.processOnce 5 Queue.QueueName.PROCESS 3 wFailRes wQs6)
            Queue.QueueName.FAILED =
          wQs6 Queue.QueueName.FAILED ++
            [{ wJob6 with
              data := { wJob6.data with error := some msg },
              createdAt := 5 }] ∧
        (Queue.processOnce 5 Queue.QueueName.PROCESS 3 wFailRes wQs6)
            Queue.QueueName.PROCESS = [])) ∧
    ((wStep wQs6) Queue.QueueName.PROCESS =
        [{ wJob6 with
          data := { wJob6.data with retryCount := some 1 },
          createdAt := 5 }] ∧
      (wStep (wStep wQs6)) Queue.QueueName.PROCESS =
        [{ wJob6 with
          data := { wJob6.data with retryCount := some 2 },
          createdAt := 5 }] ∧
      (wStep (wStep (wStep wQs6))) Queue.QueueName.PROCESS = [] ∧
      (wStep (wStep (wStep wQs6))) Queue.QueueName.FAILED =
        [⟨"j1", "process", "v1", 1, ⟨some 2, some "boom", "payload"⟩, 5⟩] ∧
      (wStep (wStep (wStep wQs6))) Queue.QueueName.COMPLETED = []) :=
  C6_process_queue_retry 5 Queue.QueueName.PROCESS 3 wFailRes wQs6 wJob6 []
    rfl (by decide) (by decide)

namespace Queue

/-- Reference-level refinement of the queue store, used to express the
aliasing behaviour of `peekQueue`: JavaScript arrays are heap objects, so
the store is a heap of array cells addressed by index, and
`inMemoryQueues` maps each lane name to a fixed cell address.  `peekQueue`
returns `[...inMemoryQueues[queue]]`, i.e. it allocates a fresh cell
holding a copy of the lane and returns the fresh address. -/
abbrev Heap := List (List QueueJob)

/-- Read the array cell at an address (a dangling address reads as the
empty array; lane addresses are always in range). -/
def readH (h : Heap) (a : Nat) : List QueueJob := h.getD a []

/-- Overwrite the array cell at an address — the model of a caller
mutating an array it was handed. -/
def writeH (h : Heap) (a : Nat) (v : List QueueJob) : Heap := h.set a v

/-- Fixed cell address of each lane of `inMemoryQueues`. -/
def laneAddr : QueueName → Nat
  | .UPLOAD => 0
  | .PROCESS => 1
  | .RENDER => 2
  | .COMPLETED => 3
  | .FAILED => 4

/-- Embedding of `peekQueue`: return all jobs of a lane without removing
them, as a freshly allocated copy of the lane's array. -/
def peekQueue (q : QueueName) (h : Heap) : Nat × Heap :=
  (h.length, h ++ [readH h (laneAddr q)])

/-- Embedding of `getQueueSize`: the length of the lane's array; the heap
is not touched at all. -/
def getQueueSize (q : QueueName) (h : Heap) : Nat × Heap :=
  ((readH h (laneAddr q)).length, h)

/-- Lane addresses stay below five. -/
theorem laneAddr_lt (q : QueueName) : laneAddr q < 5 := by
  cases q <;> simp [laneAddr]

end Queue

/-- C10: `peekQueue` and `getQueueSize` never modify any lane — after
either call every lane's cell reads exactly as before (for `getQueueSize`
the heap is literally unchanged) — and `peekQueue` returns a freshly
allocated copy of the lane's array whose address differs from every lane's
address, so overwriting the returned array leaves the queue's internal
state untouched. -/
theorem C10_peek_size_pure (q : Queue.QueueName) (h : Queue.Heap)
    (hlen : 5 ≤ h.length) :
    ((Queue.getQueueSize q h).2 = h) ∧
    ((Queue.getQueueSize q h).1 = (Queue.readH h (Queue.laneAddr q)).length) ∧
    (Queue.readH (Queue.peekQueue q h).2 (Queue.peekQueue q h).1 =
      Queue.readH h (Queue.laneAddr q)) ∧
    (∀ q2, Queue.readH (Queue.peekQueue q h).2 (Queue.laneAddr q2) =
      Queue.readH h (Queue.laneAddr q2)) ∧
    (∀ q2, (Queue.peekQueue q h).1 ≠ Queue.laneAddr q2) ∧
    (∀ v q2, Queue.readH
        (Queue.writeH (Queue.peekQueue q h).2 (Queue.peekQueue q h).1 v)
        (Queue.laneAddr q2) =
      Queue.readH h (Queue.laneAddr q2)) := by
  have haddr : ∀ q2 : Queue.QueueName, Queue.laneAddr q2 < h.length :=
    fun q2 => lt_of_lt_of_le (Queue.laneAddr_lt q2) hlen
  refine ⟨rfl, rfl, ?_, ?_, ?_, ?_⟩
  · show (h ++ [Queue.readH h (Queue.laneAddr q)]).getD h.length [] = _
    rw [List.getD_eq_getElem?_getD, List.getElem?_concat_length]
    rfl
  · intro q2
    show (h ++ [Queue.readH h (Queue.laneAddr q)]).getD (Queue.laneAddr q2) [] = _
    rw [List.getD_eq_getElem?_getD, List.getElem?_append_left (haddr q2),
      ← List.getD_eq_getElem?_getD]
    rfl
  · intro q2
    show h.length ≠ Queue.laneAddr q2
    have := haddr q2
    omega
  · intro v q2
    show (((h ++ [Queue.readH h (Queue.laneAddr q)]).set h.length v)).getD
        (Queue.laneAddr q2) [] = _
    rw [List.getD_eq_getElem?_getD, List.getElem?_set_ne (by have := haddr q2; omega),
      List.getElem?_append_left (haddr q2), ← List.getD_eq_getElem?_getD]
    rfl

/-- Concrete five-cell heap (all lanes empty) for the C10 witness. -/
def wHeap : Queue.Heap := [[], [], [], [], []]

/-- Witness for C10 at the concrete empty five-lane heap. -/
theorem C10_peek_size_pure_witness :
    ((Queue.getQueueSize Queue.QueueName.PROCESS wHeap).2 = wHeap) ∧
    ((Queue.getQueueSize Queue.QueueName.PROCESS wHeap).1 =
      (Queue.readH wHeap (Queue.laneAddr Queue.QueueName.PROCESS)).length) ∧
    (Queue.readH (Queue.peekQueue Queue.QueueName.PROCESS wHeap).2
        (Queue.peekQueue Queue.QueueName.PROCESS wHeap).1 =
      Queue.readH wHeap (Queue.laneAddr Queue.QueueName.PROCESS)) ∧
    (∀ q2, Queue.readH (Queue.peekQueue Queue.QueueName.PROCESS wHeap).2
        (Queue.laneAddr q2) =
      Queue.readH wHeap (Queue.laneAddr q2)) ∧
    (∀ q2, (Queue.peekQueue Queue.QueueName.PROCESS wHeap).1 ≠ Queue.laneAddr q2) ∧
    (∀ v q2, Queue.readH
        (Queue.writeH (Queue.peekQueue Queue.QueueName.PROCESS wHeap).2
          (Queue.peekQueue Queue.QueueName.PROCESS wHeap).1 v)
        (Queue.laneAddr q2) =
      Queue.readH wHeap (Queue.laneAddr q2)) :=
  C10_peek_size_pure Queue.QueueName.PROCESS wHeap (by decide)

namespace FFmpeg

/-- Single-quote character spliced into the command templates. -/
def quoteC : Char := Char.ofNat 39

/-- Backslash character used by the escape chains. -/
def backslashC : Char := Char.ofNat 92

/-- Left square bracket. -/
def lbrackC : Char := Char.ofNat 91

/-- Right square bracket. -/
def rbrackC : Char := Char.ofNat 93

/-- Shorthand: a Lean string literal as the character list it denotes.
Command strings are modelled as `List Char` throughout this namespace. -/
def str (s : String) : List Char := s.toList

/-- Characters escaped by `generateCaptionFilter`: its chain of global
single-character replaces handles backslash, quote, colon and both
brackets. -/
def captionSpecials : List Char := [backslashC, quoteC, ':', lbrackC, rbrackC]

/-- Characters escaped by `generateViralThumbnail`: its chain stops after
backslash, quote and colon — brackets are not replaced. -/
def thumbSpecials : List Char := [backslashC, quoteC, ':']

/-- One step of an escape chain on a single character: a special character
gains a preceding backslash.  The source chains
`.replace(/\\/g,'\\\\').replace(/x/g,'\\x')...` act exactly per character,
because the backslashes are doubled first and no later single-character
replace matches a character introduced by an earlier one. -/
def escWrt (specials : List Char) (c : Char) : List Char :=
  if c ∈ specials then [backslashC, c] else [c]

/-- Embedding of the escape chain of `generateCaptionFilter`. -/
def escapeCaptionText (s : List Char) : List Char :=
  (s.map (escWrt captionSpecials)).flatten

/-- Embedding of the escape chain of `generateViralThumbnail`. -/
def escapeViralTitle (s : List Char) : List Char :=
  (s.map (escWrt thumbSpecials)).flatten

/-- Well-formedness of an escaped drawtext payload with respect to a
special-character set: the text is a sequence of units, each either an
ordinary (non-special) character or a backslash followed by a special
character. -/
def escapedWrt (specials : List Char) : List Char → Bool
  | [] => true
  | [c] => decide (c ≠ backslashC ∧ c ∉ specials)
  | c :: d :: ds =>
    if c = backslashC then decide (d ∈ specials) && escapedWrt specials ds
    else decide (c ∉ specials) && escapedWrt specials (d :: ds)

/-- Unfolding of `escapedWrt` at an ordinary leading character. -/
theorem escapedWrt_cons_ne (specials : List Char) (c : Char)
    (hc : c ≠ backslashC) (l : List Char) :
    escapedWrt specials (c :: l) =
      (decide (c ∉ specials) && escapedWrt specials l) := by
  cases l with
  | nil => simp [escapedWrt, hc]
  | cons d ds => simp [escapedWrt, hc]

/-- An escape chain produces a well-formed payload for its own special
set, provided the backslash itself is in the set. -/
theorem escapedWrt_escape (specials : List Char) (hbs : backslashC ∈ specials)
    (s : List Char) :
    escapedWrt specials ((s.map (escWrt specials)).flatten) = true := by
  induction s with
  | nil => rfl
  | cons c cs ih =>
    simp only [List.map_cons, List.flatten_cons]
    by_cases hc : c ∈ specials
    · rw [escWrt, if_pos hc]
      show escapedWrt specials (backslashC :: c :: _) = true
      simp [escapedWrt, hc, ih]
    · rw [escWrt, if_neg hc]
      have hcb : c ≠ backslashC := fun hEq => hc (hEq ▸ hbs)
      show escapedWrt specials (c :: _) = true
      rw [escapedWrt_cons_ne specials c hcb]
      simp [hc, ih]

/-- Embedding of `extractAudio`. -/
def extractAudio (inputPath outputPath : List Char) : List Char :=
  str "ffmpeg -i \"" ++ inputPath ++
    str "\" -vn -acodec pcm_s16le -ar 44100 -ac 2 \"" ++ outputPath ++ str "\""

/-- Embedding of `reduceNoise`. -/
def reduceNoise (inputPath outputPath : List Char) : List Char :=
  str "ffmpeg -i \"" ++ inputPath ++
    str "\" -af \"highpass=f=200,lowpass=f=3000,afftdn=nf=-25\" \"" ++
    outputPath ++ str "\""

/-- Embedding of `normalizeAudio` (the command builder). -/
def normalizeAudio (inputPath outputPath : List Char) : List Char :=
  str "ffmpeg -i \"" ++ inputPath ++
    str "\" -af \"loudnorm=I=-16:TP=-1.5:LRA=11\" \"" ++ outputPath ++ str "\""

/-- Embedding of `cutVideo`; `showNum` renders a JavaScript number into
the template (the exact float formatting is kept abstract). -/
def cutVideo (showNum : ℚ → List Char) (inputPath outputPath : List Char)
    (startTime endTime : ℚ) : List Char :=
  let duration := endTime - startTime
  str "ffmpeg -i \"" ++ inputPath ++ str "\" -ss " ++ showNum startTime ++
    str " -t " ++ showNum duration ++ str " -c copy \"" ++ outputPath ++ str "\""

/-- Embedding of `applyColorGrade`. -/
def applyColorGrade (showNum : ℚ → List Char)
    (brightness contrast saturation : ℚ) : List Char :=
  str "eq=brightness=" ++ showNum brightness ++ str ":contrast=" ++
    showNum contrast ++ str ":saturation=" ++ showNum saturation

/-- Embedding of `applyZoomEffect`. -/
def applyZoomEffect (showNum : ℚ → List Char)
    (startTime endTime scale centerX centerY : ℚ) : List Char :=
  let duration := endTime - startTime
  str "zoompan=z=" ++ [quoteC] ++ str "if(between(t," ++ showNum startTime ++
    str "," ++ showNum endTime ++ str ")," ++ showNum scale ++ str ",1)" ++
    [quoteC] ++ str ":d=" ++ showNum duration ++ str ":x=" ++ [quoteC] ++
    str "iw*" ++ showNum centerX ++ [quoteC] ++ str ":y=" ++ [quoteC] ++
    str "ih*" ++ showNum centerY ++ [quoteC] ++ str ":s=1080x1920"

/-- Embedding of `applyTransition`; the transition kind is `"fade"` or
`"dissolve"`. -/
def applyTransition (showNum : ℚ → List Char) (startTime duration : ℚ)
    (transitionKind : String) : List Char :=
  if transitionKind = "fade" then
    str "fade=t=in:st=" ++ showNum startTime ++ str ":d=" ++ showNum duration
  else
    str "fade=t=in:st=" ++ showNum startTime ++ str ":d=" ++ showNum duration ++
      str ":alpha=1"

/-- Target aspect ratios of `convertAspectRatio` (the TypeScript union
type). -/
inductive AspectRatio where
  | r916
  | r169
  | r11
deriving DecidableEq

/-- The `ratioMap` of `convertAspectRatio`. -/
def ratioDims : AspectRatio → ℚ × ℚ
  | .r916 => (1080, 1920)
  | .r169 => (1920, 1080)
  | .r11 => (1080, 1080)

/-- Embedding of `convertAspectRatio`. -/
def convertAspectRatio (showNum : ℚ → List Char) (inputPath outputPath : List Char)
    (targetRatio : AspectRatio) : List Char :=
  let dims := ratioDims targetRatio
  str "ffmpeg -i \"" ++ inputPath ++ str "\" -vf \"scale=" ++ showNum dims.1 ++
    str ":" ++ showNum dims.2 ++
    str ":force_original_aspect_ratio=decrease,pad=" ++ showNum dims.1 ++
    str ":" ++ showNum dims.2 ++ str ":(ow-iw)/2:(oh-ih)/2:black\" -c:a copy \"" ++
    outputPath ++ str "\""

/-- Quality levels of `compressVideo` (the TypeScript union type). -/
inductive Quality where
  | low
  | medium
  | high
deriving DecidableEq

/-- The `crfMap` of `compressVideo`. -/
def crfOf : Quality → ℚ
  | .low => 28
  | .medium => 23
  | .high => 18

/-- Embedding of `compressVideo` (the source defaults `quality` to
`medium`). -/
def compressVideo (showNum : ℚ → List Char) (inputPath outputPath : List Char)
    (quality : Quality) : List Char :=
  str "ffmpeg -i \"" ++ inputPath ++
    str "\" -c:v libx264 -preset medium -crf " ++ showNum (crfOf quality) ++
    str " -c:a aac -b:a 128k \"" ++ outputPath ++ str "\""

end FFmpeg

namespace FFmpeg

/-- Caption style of `types/video` (`CaptionStyle`). -/
structure CaptionStyle where
  fontSize : ℚ
  fontColor : String
  backgroundColor : String
  opacity : ℚ
  position : String
  animation : Option String
deriving DecidableEq

/-- Caption of `types/video` as consumed by the command builders; the
builder guards `style` with `?.`, so it is modelled as optional. -/
structure Caption where
  id : String
  video_id : String
  text : String
  start_time : ℚ
  end_time : ℚ
  style : Option CaptionStyle
  is_highlighted : Bool
  highlight_words : List String
  created_at : String
deriving DecidableEq

/-- Color palette of `StyleConfig`. -/
structure StyleColors where
  primary : String
  secondary : String
  accent : String
deriving DecidableEq

/-- Style configuration of `types/video` as consumed by the builders. -/
structure StyleConfig where
  style : String
  pace : String
  colors : StyleColors
deriving DecidableEq

/-- Zoom parameters read from a visual effect's free-form `parameters`. -/
structure EffectParams where
  scale : Option ℚ
  centerX : Option ℚ
  centerY : Option ℚ
deriving DecidableEq

/-- Visual effect of `types/video` as consumed by the pipeline builder. -/
structure VisualEffect where
  effect_type : String
  start_time : ℚ
  end_time : ℚ
  parameters : EffectParams
deriving DecidableEq

/-- JavaScript `x || d` on an optional number: `undefined` and `0` are
falsy, so both fall back to the default. -/
def jsOrNum (x : Option ℚ) (d : ℚ) : ℚ :=
  match x with
  | none => d
  | some v => if v = 0 then d else v

/-- JavaScript `x || d` on an optional string: `undefined` and the empty
string are falsy. -/
def jsOrStr (x : Option String) (d : String) : String :=
  match x with
  | none => d
  | some s => if s = "" then d else s

/-- JavaScript `Math.round`: floor of `x + 1/2`. -/
def jsRound (x : ℚ) : Int := Int.floor (x + 1 / 2)

/-- JavaScript `n.toString(16)` for an integer. -/
def intToHex (n : Int) : List Char :=
  if n < 0 then '-' :: Nat.toDigits 16 n.natAbs else Nat.toDigits 16 n.natAbs

/-- JavaScript `.padStart(2, '0')`. -/
def padStart2 (s : List Char) : List Char :=
  List.replicate (2 - s.length) '0' ++ s

/-- Embedding of `generateCaptionFilter` of `ffmpeg-commands.ts` (source
defaults: `videoWidth = 1080`, `videoHeight = 1920`). -/
def generateCaptionFilter (showNum : ℚ → List Char) (caption : Caption)
    (videoWidth videoHeight : ℚ) (style : StyleConfig) : List Char :=
  let escapedText := escapeCaptionText caption.text.toList
  let fontSize := jsOrNum (caption.style.map fun st => st.fontSize) 60
  let fontColor :=
    if caption.is_highlighted then style.colors.accent
    else jsOrStr (caption.style.map fun st => st.fontColor) "#FFFFFF"
  let bgColor := jsOrStr (caption.style.map fun st => st.backgroundColor) "#000000"
  let opacity := jsOrNum (caption.style.map fun st => st.opacity) (8 / 10)
  let yPosition := videoHeight - 200
  let bgOpacity := padStart2 (intToHex (jsRound (opacity * 255)))
  let bgColorWithAlpha := bgColor.toList ++ bgOpacity
  str "drawtext=fontfile=/usr/share/fonts/truetype/dejavu/DejaVuSans-Bold.ttf:text=" ++
    [quoteC] ++ escapedText ++ [quoteC] ++
    str ":fontcolor=" ++ fontColor.toList ++
    str ":fontsize=" ++ showNum fontSize ++
    str ":box=1:boxcolor=" ++ bgColorWithAlpha ++
    str ":boxborderw=10:x=(w-text_w)/2:y=" ++ showNum yPosition ++
    str ":enable=" ++ [quoteC] ++ str "between(t," ++ showNum caption.start_time ++
    str "," ++ showNum caption.end_time ++ str ")" ++ [quoteC]

/-- Embedding of `applyCaptions` (source defaults: 1080 × 1920). -/
def applyCaptions (showNum : ℚ → List Char) (inputPath outputPath : List Char)
    (captions : List Caption) (style : StyleConfig)
    (videoWidth videoHeight : ℚ) : List Char :=
  let captionFilters := captions.map fun caption =>
    generateCaptionFilter showNum caption videoWidth videoHeight style
  let filterComplex := List.intercalate (str ",") captionFilters
  str "ffmpeg -i \"" ++ inputPath ++ str "\" -vf \"" ++ filterComplex ++
    str "\" -c:a copy \"" ++ outputPath ++ str "\""

/-- Embedding of `generateViralThumbnail` (source defaults: 1280 × 720). -/
def generateViralThumbnail (showNum : ℚ → List Char)
    (inputPath outputPath : List Char) (timestamp : ℚ) (title : List Char)
    (width height : ℚ) : List Char :=
  let escapedTitle := escapeViralTitle title
  str "ffmpeg -i \"" ++ inputPath ++ str "\" -ss " ++ showNum timestamp ++
    str " -vframes 1 -vf \"scale=" ++ showNum width ++ str ":" ++
    showNum height ++
    str ",eq=brightness=0.1:contrast=1.2:saturation=1.3,drawtext=fontfile=/usr/share/fonts/truetype/dejavu/DejaVuSans-Bold.ttf:text=" ++
    [quoteC] ++ escapedTitle ++ [quoteC] ++
    str ":fontcolor=white:fontsize=80:box=1:boxcolor=black@0.7:boxborderw=20:x=(w-text_w)/2:y=h-150\" \"" ++
    outputPath ++ str "\""

/-- Embedding of `path.replace(/\.[^.]+$/, repl)` used by the pipeline:
replace a trailing dot-extension (at least one non-dot character after the
last dot) by `repl`; without a match the path is unchanged. -/
def replaceExtension (path : List Char) (repl : List Char) : List Char :=
  let rev := path.reverse
  let ext := rev.takeWhile (fun c => c ≠ '.')
  if ext.length < rev.length ∧ ext ≠ [] then
    (rev.drop (ext.length + 1)).reverse ++ repl
  else path

/-- Options object of `generateCompleteEditingPipeline`, with the source's
defaults. -/
structure PipelineOptions where
  removeNoise : Bool := true
  normalizeAudio : Bool := true
  colorGrade : Bool := true
  videoWidth : ℚ := 1080
  videoHeight : ℚ := 1920
deriving DecidableEq

/-- Embedding of `generateCompleteEditingPipeline`.  The mutable
`stepOutput` variable of the source starts as the empty (falsy) string, is
set to the denoised path when noise removal runs and to the normalized
path when normalization runs; `currentInput` is never reassigned and stays
`inputPath`. -/
def generateCompleteEditingPipeline (showNum : ℚ → List Char)
    (inputPath outputPath : List Char) (captions : List Caption)
    (effects : List VisualEffect) (style : StyleConfig)
    (options : PipelineOptions) : List (List Char) :=
  let audioPath := replaceExtension inputPath (str "_audio.wav")
  let denoisedPath := replaceExtension inputPath (str "_denoised.wav")
  let normalizedPath := replaceExtension inputPath (str "_normalized.wav")
  let stepOutput1 : List Char := if options.removeNoise then denoisedPath else []
  let normInput := if stepOutput1 = [] then audioPath else stepOutput1
  let stepOutput2 : List Char :=
    if options.normalizeAudio then normalizedPath else stepOutput1
  let audioCommands : List (List Char) :=
    if options.removeNoise || options.normalizeAudio then
      [extractAudio inputPath audioPath] ++
        (if options.removeNoise then [reduceNoise audioPath denoisedPath] else []) ++
        (if options.normalizeAudio then [normalizeAudio normInput normalizedPath]
          else [])
    else []
  let filters : List (List Char) :=
    (if options.colorGrade then
      [applyColorGrade showNum (6 / 100) (11 / 10) (12 / 10)] else []) ++
    effects.filterMap (fun effect =>
      if effect.effect_type = "zoom" then
        some (applyZoomEffect showNum effect.start_time effect.end_time
          (jsOrNum effect.parameters.scale (12 / 10))
          (jsOrNum effect.parameters.centerX (1 / 2))
          (jsOrNum effect.parameters.centerY (1 / 2)))
      else if effect.effect_type = "transition" then
        some (applyTransition showNum effect.start_time (1 / 2) "fade")
      else none) ++
    captions.map (fun caption =>
      generateCaptionFilter showNum caption options.videoWidth
        options.videoHeight style)
  let filterComplex := List.intercalate (str ",") filters
  let videoWithEffects := replaceExtension inputPath (str "_effects.mp4")
  let mainCommand : List Char :=
    if stepOutput2 ≠ [] then
      str "ffmpeg -i \"" ++ inputPath ++ str "\" -i \"" ++ stepOutput2 ++
        str "\" -filter_complex \"" ++ filterComplex ++
        str "\" -map 0:v -map 1:a -c:v libx264 -preset medium -crf 23 -c:a aac -b:a 192k \"" ++
        videoWithEffects ++ str "\""
    else
      str "ffmpeg -i \"" ++ inputPath ++ str "\" -vf \"" ++ filterComplex ++
        str "\" -c:v libx264 -preset medium -crf 23 -c:a copy \"" ++
        videoWithEffects ++ str "\""
  audioCommands ++ [mainCommand] ++
    [str "mv \"" ++ videoWithEffects ++ str "\" \"" ++ outputPath ++ str "\""]

end FFmpeg

/-- Concrete number renderer used by the witnesses and counterexamples
(the JavaScript float formatting is abstract in the embedding; any
renderer exercises the claims). -/
def wShowNum : ℚ → List Char := fun x => (toString x).toList

set_option maxHeartbeats 2000000 in
/-- Counterexample for C7: `generateViralThumbnail` does not escape
brackets.  On the title `"["` the escape chain returns the bracket
unchanged, the generated command contains that bracket but no backslash at
all, and the escaped title fails the well-formedness check for the
bracket-inclusive special set that `generateCaptionFilter` uses. -/
theorem C7_escaping_counterexample :
    FFmpeg.escapeViralTitle [FFmpeg.lbrackC] = [FFmpeg.lbrackC] ∧
    FFmpeg.lbrackC ∈ FFmpeg.generateViralThumbnail wShowNum (FFmpeg.str "in.mp4")
      (FFmpeg.str "out.jpg") 1 [FFmpeg.lbrackC] 1280 720 ∧
    FFmpeg.backslashC ∉ FFmpeg.generateViralThumbnail wShowNum (FFmpeg.str "in.mp4")
      (FFmpeg.str "out.jpg") 1 [FFmpeg.lbrackC] 1280 720 ∧
    FFmpeg.escapedWrt FFmpeg.captionSpecials
      (FFmpeg.escapeViralTitle [FFmpeg.lbrackC]) = false := by
  decide

namespace FFmpeg

/-- Everything `generateCaptionFilter` emits before the escaped caption
text: the drawtext prologue up to and including the opening quote of
`text='`. -/
def captionFilterHead : List Char :=
  str "drawtext=fontfile=/usr/share/fonts/truetype/dejavu/DejaVuSans-Bold.ttf:text=" ++
    [quoteC]

/-- Everything `generateCaptionFilter` emits after the escaped caption
text: the closing quote and the style/timing clauses. -/
def captionFilterTail (showNum : ℚ → List Char) (caption : Caption)
    (videoHeight : ℚ) (style : StyleConfig) : List Char :=
  let fontSize := jsOrNum (caption.style.map fun st => st.fontSize) 60
  let fontColor :=
    if caption.is_highlighted then style.colors.accent
    else jsOrStr (caption.style.map fun st => st.fontColor) "#FFFFFF"
  let bgColor := jsOrStr (caption.style.map fun st => st.backgroundColor) "#000000"
  let opacity := jsOrNum (caption.style.map fun st => st.opacity) (8 / 10)
  let yPosition := videoHeight - 200
  let bgOpacity := padStart2 (intToHex (jsRound (opacity * 255)))
  let bgColorWithAlpha := bgColor.toList ++ bgOpacity
  [quoteC] ++ str ":fontcolor=" ++ fontColor.toList ++ str ":fontsize=" ++
    showNum fontSize ++ str ":box=1:boxcolor=" ++ bgColorWithAlpha ++
    str ":boxborderw=10:x=(w-text_w)/2:y=" ++ showNum yPosition ++
    str ":enable=" ++ [quoteC] ++ str "between(t," ++ showNum caption.start_time ++
    str "," ++ showNum caption.end_time ++ str ")" ++ [quoteC]

/-- Everything `generateViralThumbnail` emits before the escaped title. -/
def viralThumbnailHead (showNum : ℚ → List Char) (inputPath : List Char)
    (timestamp w h : ℚ) : List Char :=
  str "ffmpeg -i \"" ++ inputPath ++ str "\" -ss " ++ showNum timestamp ++
    str " -vframes 1 -vf \"scale=" ++ showNum w ++ str ":" ++ showNum h ++
    str ",eq=brightness=0.1:contrast=1.2:saturation=1.3,drawtext=fontfile=/usr/share/fonts/truetype/dejavu/DejaVuSans-Bold.ttf:text=" ++
    [quoteC]

/-- Everything `generateViralThumbnail` emits after the escaped title. -/
def viralThumbnailTail (outputPath : List Char) : List Char :=
  [quoteC] ++
    str ":fontcolor=white:fontsize=80:box=1:boxcolor=black@0.7:boxborderw=20:x=(w-text_w)/2:y=h-150\" \"" ++
    outputPath ++ str "\""

end FFmpeg

/-- C7 (amended): `generateCaptionFilter` backslash-escapes every
backslash, single quote, colon and bracket of the caption text, while
`generateViralThumbnail` backslash-escapes backslashes, single quotes and
colons of the title but passes brackets through unescaped; each builder
emits exactly its head, then its escaped text, then its tail, so the
escaped text sits between `text='` and `'` of the drawtext filter. -/
theorem C7_escaping_amended :
    (∀ s : List Char,
      FFmpeg.escapedWrt FFmpeg.captionSpecials (FFmpeg.escapeCaptionText s) = true) ∧
    (∀ s : List Char,
      FFmpeg.escapedWrt FFmpeg.thumbSpecials (FFmpeg.escapeViralTitle s) = true) ∧
    (∀ (showNum : ℚ → List Char) (caption : FFmpeg.Caption) (vw vh : ℚ)
        (style : FFmpeg.StyleConfig),
      FFmpeg.generateCaptionFilter showNum caption vw vh style =
        FFmpeg.captionFilterHead ++ FFmpeg.escapeCaptionText caption.text.toList ++
          FFmpeg.captionFilterTail showNum caption vh style) ∧
    (∀ (showNum : ℚ → List Char) (i o : List Char) (ts : ℚ) (title : List Char)
        (w h : ℚ),
      FFmpeg.generateViralThumbnail showNum i o ts title w h =
        FFmpeg.viralThumbnailHead showNum i ts w h ++
          FFmpeg.escapeViralTitle title ++ FFmpeg.viralThumbnailTail o) := by
  refine ⟨?_, ?_, ?_, ?_⟩
  · intro s
    exact FFmpeg.escapedWrt_escape _ (by decide) s
  · intro s
    exact FFmpeg.escapedWrt_escape _ (by decide) s
  · intro showNum caption vw vh style
    simp only [FFmpeg.generateCaptionFilter, FFmpeg.captionFilterHead,
      FFmpeg.captionFilterTail, List.append_assoc]
  · intro showNum i o ts title w h
    simp only [FFmpeg.generateViralThumbnail, FFmpeg.viralThumbnailHead,
      FFmpeg.viralThumbnailTail, List.append_assoc]

/-- C8: every embedded command-string builder is a pure function of its
parameters (the number renderer included): two calls with identical
arguments return identical command strings or command lists.  The
embedding witnesses that the source builders read no clock, randomness or
module state — each is a closed string template over its parameters. -/
theorem C8_builders_deterministic :
    (∀ (i o i2 o2 : List Char), i = i2 → o = o2 →
      FFmpeg.extractAudio i o = FFmpeg.extractAudio i2 o2) ∧
    (∀ (sn sn2 : ℚ → List Char) (i o i2 o2 : List Char) (s e s2 e2 : ℚ),
      sn = sn2 → i = i2 → o = o2 → s = s2 → e = e2 →
      FFmpeg.cutVideo sn i o s e = FFmpeg.cutVideo sn2 i2 o2 s2 e2) ∧
    (∀ (sn sn2 : ℚ → List Char) (i o i2 o2 : List Char)
        (cs cs2 : List FFmpeg.Caption) (st st2 : FFmpeg.StyleConfig)
        (vw vh vw2 vh2 : ℚ),
      sn = sn2 → i = i2 → o = o2 → cs = cs2 → st = st2 → vw = vw2 → vh = vh2 →
      FFmpeg.applyCaptions sn i o cs st vw vh =
        FFmpeg.applyCaptions sn2 i2 o2 cs2 st2 vw2 vh2) ∧
    (∀ (sn sn2 : ℚ → List Char) (i o i2 o2 : List Char)
        (r r2 : FFmpeg.AspectRatio),
      sn = sn2 → i = i2 → o = o2 → r = r2 →
      FFmpeg.convertAspectRatio sn i o r = FFmpeg.convertAspectRatio sn2 i2 o2 r2) ∧
    (∀ (sn sn2 : ℚ → List Char) (i o i2 o2 : List Char)
        (qual qual2 : FFmpeg.Quality),
      sn = sn2 → i = i2 → o = o2 → qual = qual2 →
      FFmpeg.compressVideo sn i o qual = FFmpeg.compressVideo sn2 i2 o2 qual2) ∧
    (∀ (sn sn2 : ℚ → List Char) (i o i2 o2 : List Char)
        (cs cs2 : List FFmpeg.Caption) (es es2 : List FFmpeg.VisualEffect)
        (st st2 : FFmpeg.StyleConfig) (op op2 : FFmpeg.PipelineOptions),
      sn = sn2 → i = i2 → o = o2 → cs = cs2 → es = es2 → st = st2 → op = op2 →
      FFmpeg.generateCompleteEditingPipeline sn i o cs es st op =
        FFmpeg.generateCompleteEditingPipeline sn2 i2 o2 cs2 es2 st2 op2) := by
  refine ⟨?_, ?_, ?_, ?_, ?_, ?_⟩
  · intro i o i2 o2 h1 h2
    subst h1; subst h2; rfl
  · intro sn sn2 i o i2 o2 s e s2 e2 h0 h1 h2 h3 h4
    subst h0; subst h1; subst h2; subst h3; subst h4; rfl
  · intro sn sn2 i o i2 o2 cs cs2 st st2 vw vh vw2 vh2 h0 h1 h2 h3 h4 h5 h6
    subst h0; subst h1; subst h2; subst h3; subst h4; subst h5; subst h6; rfl
  · intro sn sn2 i o i2 o2 r r2 h0 h1 h2 h3
    subst h0; subst h1; subst h2; subst h3; rfl
  · intro sn sn2 i o i2 o2 qual qual2 h0 h1 h2 h3
    subst h0; subst h1; subst h2; subst h3; rfl
  · intro sn sn2 i o i2 o2 cs cs2 es es2 st st2 op op2 h0 h1 h2 h3 h4 h5 h6
    subst h0; subst h1; subst h2; subst h3; subst h4; subst h5; subst h6; rfl

/-- Concrete style configuration used by the C8 witness. -/
def wStyle : FFmpeg.StyleConfig := ⟨"modern", "fast", ⟨"#FF6B6B", "#4ECDC4", "#FFE66D"⟩⟩

/-- Witness for C8 at concrete arguments. -/
theorem C8_builders_deterministic_witness :
    (FFmpeg.extractAudio (FFmpeg.str "a.mp4") (FFmpeg.str "a.wav") =
      FFmpeg.extractAudio (FFmpeg.str "a.mp4") (FFmpeg.str "a.wav")) ∧
    (FFmpeg.cutVideo wShowNum (FFmpeg.str "a.mp4") (FFmpeg.str "b.mp4") 0 1 =
      FFmpeg.cutVideo wShowNum (FFmpeg.str "a.mp4") (FFmpeg.str "b.mp4") 0 1) ∧
    (FFmpeg.applyCaptions wShowNum (FFmpeg.str "a.mp4") (FFmpeg.str "b.mp4")
        [] wStyle 1080 1920 =
      FFmpeg.applyCaptions wShowNum (FFmpeg.str "a.mp4") (FFmpeg.str "b.mp4")
        [] wStyle 1080 1920) ∧
    (FFmpeg.convertAspectRatio wShowNum (FFmpeg.str "a.mp4") (FFmpeg.str "b.mp4")
        FFmpeg.AspectRatio.r916 =
      FFmpeg.convertAspectRatio wShowNum (FFmpeg.str "a.mp4") (FFmpeg.str "b.mp4")
        FFmpeg.AspectRatio.r916) ∧
    (FFmpeg.compressVideo wShowNum (FFmpeg.str "a.mp4") (FFmpeg.str "b.mp4")
        FFmpeg.Quality.medium =
      FFmpeg.compressVideo wShowNum (FFmpeg.str "a.mp4") (FFmpeg.str "b.mp4")
        FFmpeg.Quality.medium) ∧
    (FFmpeg.generateCompleteEditingPipeline wShowNum (FFmpeg.str "a.mp4")
        (FFmpeg.str "b.mp4") [] [] wStyle {} =
      FFmpeg.generateCompleteEditingPipeline wShowNum (FFmpeg.str "a.mp4")
        (FFmpeg.str "b.mp4") [] [] wStyle {}) :=
  ⟨(C8_builders_deterministic.1 _ _ _ _ rfl rfl),
   (C8_builders_deterministic.2.1 _ _ _ _ _ _ _ _ _ _ rfl rfl rfl rfl rfl),
   (C8_builders_deterministic.2.2.1 _ _ _ _ _ _ _ _ _ _ _ _ _ _
      rfl rfl rfl rfl rfl rfl rfl),
   (C8_builders_deterministic.2.2.2.1 _ _ _ _ _ _ _ _ rfl rfl rfl rfl),
   (C8_builders_deterministic.2.2.2.2.1 _ _ _ _ _ _ _ _ rfl rfl rfl rfl),
   (C8_builders_deterministic.2.2.2.2.2 _ _ _ _ _ _ _ _ _ _ _ _ _ _
      rfl rfl rfl rfl rfl rfl rfl)⟩

namespace Processor

/-- Keys of `STEP_DURATIONS`, in object-iteration order. -/
def stepKeys : List String :=
  ["validation", "extraction", "analysis", "effects", "rendering",
   "thumbnail", "upload"]

/-- Seconds assigned to each pipeline stage by `STEP_DURATIONS`. -/
def stepDuration : String → ℚ
  | "validation" => 3
  | "extraction" => 8
  | "analysis" => 15
  | "effects" => 10
  | "rendering" => 50
  | "thumbnail" => 5
  | "upload" => 9
  | _ => 0

/-- The `stepMap` of `calculateTimeRemaining`: progress label to stage
key. -/
def stepMap : List (String × String) :=
  [("Validating video", "validation"), ("Extracting audio", "extraction"),
   ("Analyzing with AI", "analysis"),
   ("Generating visual effects", "effects"), ("Rendering video", "rendering"),
   ("Generating thumbnail", "thumbnail"), ("Uploading", "upload")]

/-- JavaScript `Math.round` on a rational. -/
def jsRound (x : ℚ) : Int := Int.floor (x + 1 / 2)

/-- Embedding of `calculateTimeRemaining` of the video processor: the
remaining share of the current stage plus all later stages, scaled by
`min(videoDuration / 60, 3)`, rounded, and clamped below by five. -/
def calculateTimeRemaining (currentStep : String) (stepProgress : ℚ)
    (videoDuration : ℚ) : Int :=
  let currentStepKey := (stepMap.lookup currentStep).getD "rendering"
  let currentStepIndex := stepKeys.findIdx (fun k => k = currentStepKey)
  let currentStepDuration := stepDuration currentStepKey
  let currentStepRemaining := currentStepDuration * (1 - stepProgress / 100)
  let futureStepsTime := ((stepKeys.drop (currentStepIndex + 1)).map stepDuration).sum
  let durationMultiplier := min (videoDuration / 60) 3
  let totalRemaining := (currentStepRemaining + futureStepsTime) * durationMultiplier
  max 5 (jsRound totalRemaining)

/-- Status object recorded via `setJobStatus`. -/
structure JobStatus where
  progress : ℚ
  currentStep : String
  timeRemaining : Option Int
  totalTime : Option Nat
  error : Option String
deriving DecidableEq

/-- The `(progress, step, delay)` table replayed by `processVideo`. -/
def pipelineSteps : List (ℚ × String × Nat) :=
  [(5, "Validating video", 500), (15, "Extracting audio", 1000),
   (30, "Analyzing with AI", 1500), (50, "Generating visual effects", 1000),
   (70, "Rendering video", 2000), (92, "Generating thumbnail", 500),
   (95, "Uploading", 1000), (98, "Finalizing", 500)]

/-- Mock video duration used by `processVideo` (`mockDuration = 120`). -/
def mockDuration : ℚ := 120

/-- Sequence of statuses recorded via `setJobStatus` on the success path
of `processVideo`: one status per replayed step, then the final completed
status (whose `totalTime` is the measured wall-clock seconds, a
parameter here). -/
def processVideoStatusTrace (totalTime : Nat) : List JobStatus :=
  (pipelineSteps.map fun s =>
    { progress := s.1
      currentStep := s.2.1
      timeRemaining := some (calculateTimeRemaining s.2.1 s.1 mockDuration)
      totalTime := none
      error := none }) ++
  [{ progress := 100
     currentStep := "Completed"
     timeRemaining := some 0
     totalTime := some totalTime
     error := none }]

/-- Sequence of `(progress, step, status)` updates recorded via
`updateJobProgress` on the success path of `processVideo`. -/
def processVideoJobProgressTrace : List (ℚ × String × String) :=
  (pipelineSteps.map fun s => (s.1, s.2.1, "running")) ++
  [(100, "Completed", "completed")]

end Processor

/-- C9: on a successful run of `processVideo` the recorded progress values
are strictly increasing — 5, 15, 30, 50, 70, 92, 95, 98, then 100 — and
the final recorded status has progress 100, step `Completed` and
timeRemaining 0 (with the job-progress channel ending `completed`): unlike
the polling endpoint's randomized progress, the simulated pipeline's own
recorded progress is monotonic and terminal at 100. -/
theorem C9_process_video_progress (totalTime : Nat) :
    ((Processor.processVideoStatusTrace totalTime).map (fun st => st.progress) =
      [5, 15, 30, 50, 70, 92, 95, 98, 100]) ∧
    List.Chain' (fun a b => a < b)
      ((Processor.processVideoStatusTrace totalTime).map (fun st => st.progress)) ∧
    ((Processor.processVideoStatusTrace totalTime).getLast? =
      some { progress := 100, currentStep := "Completed", timeRemaining := some 0,
             totalTime := some totalTime, error := none }) ∧
    (Processor.processVideoJobProgressTrace.map (fun u => u.1) =
      [5, 15, 30, 50, 70, 92, 95, 98, 100]) ∧
    List.Chain' (fun a b => a < b)
      (Processor.processVideoJobProgressTrace.map (fun u => u.1)) ∧
    Processor.processVideoJobProgressTrace.getLast? =
      some (100, "Completed", "completed") := by
  have h1 : (Processor.processVideoStatusTrace totalTime).map
      (fun st => st.progress) = [5, 15, 30, 50, 70, 92, 95, 98, 100] := rfl
  have h2 : Processor.processVideoJobProgressTrace.map (fun u => u.1) =
      [5, 15, 30, 50, 70, 92, 95, 98, 100] := rfl
  refine ⟨h1, ?_, rfl, h2, ?_, rfl⟩
  · rw [h1]
    norm_num [List.chain'_cons]
  · rw [h2]
    norm_num [List.chain'_cons]
